import Mathlib

/-!
Verification of the `is-an-ai.dev` subdomain registry against its
natural-language specification.

The repository has two JavaScript programs:
  * a validator (read here from `src/unnamed/part_000`) that checks one
    subdomain definition file against the schema and invariants, and
  * a reconciler (`src/scripts/sync-dns.js`) that converges the remote DNS
    zone and the shared redirect ruleset to the validated desired state.

Both are shallowly embedded below.  Strings are modelled as `List Char`
(`Str`), JSON values as the inductive `Json`, and every remote API call the
reconciler would issue is recorded in an explicit trace (`Call`).  All
definitions are executable so that concrete witnesses evaluate by `decide`.
-/

namespace IsAnAiDev

/-- Strings are modelled as lists of characters so that all string
operations reduce in the kernel. -/
abbrev Str := List Char

/-- JS `haystack.includes(needle)`: substring test on `Str`. -/
def strIncludes : Str → Str → Bool
  | [], nd => nd.isEmpty
  | c :: t, nd => nd.isPrefixOf (c :: t) || strIncludes t nd

/-- JS `String.prototype.split(/\s+/)` restricted to one line: splits on
runs of whitespace; a leading run contributes an initial empty field and a
trailing run a final empty field, matching the JavaScript semantics. -/
def wsSplit : Str → List Str
  | [] => [[]]
  | c :: rest =>
    let r := wsSplit rest
    if c.isWhitespace then
      match rest with
      | c2 :: _ => if c2.isWhitespace then r else [] :: r
      | [] => [] :: r
    else
      match r with
      | s :: tl => (c :: s) :: tl
      | [] => [[c]]

/-- JS `String.prototype.split(sep)` for a single-character separator. -/
def splitOnChar (sep : Char) : Str → List Str
  | [] => [[]]
  | c :: t =>
    if c = sep then [] :: splitOnChar sep t
    else
      match splitOnChar sep t with
      | s :: rest => (c :: s) :: rest
      | [] => [[c]]

/-- JS `Array.prototype.join(".")` on a list of strings. -/
def joinDots : List Str → Str
  | [] => []
  | [s] => s
  | s :: rest => s ++ '.' :: joinDots rest

/-- ASCII upper-casing, the effect of JS `toUpperCase` on the inputs this
system handles. -/
def strToUpper (s : Str) : Str := s.map Char.toUpper

/-- ASCII lower-casing, the effect of JS `toLowerCase` on the inputs this
system handles. -/
def strToLower (s : Str) : Str := s.map Char.toLower

/-- Membership of a string in a list of strings (JS `Array.includes` on
string arrays, where `===` is value equality). -/
def strListContains (l : List Str) (s : Str) : Bool := l.any (fun x => x == s)

/-- JSON values as produced by `JSON.parse`.  `undefined` is represented
one level up, as `Option Json := none`. -/
inductive Json where
  | null
  | bool (b : Bool)
  | num (n : Int)
  | str (s : Str)
  | arr (elems : List Json)
  | obj (fields : List (Str × Json))

/-- JS strict equality `===` on JSON values: primitives compare by value,
arrays and objects by reference — two distinct parse results are never
reference-equal, so they compare `false` here. -/
def jsStrictEq : Json → Json → Bool
  | .null, .null => true
  | .bool a, .bool b => a == b
  | .num a, .num b => a == b
  | .str a, .str b => a == b
  | _, _ => false

/-- JS `===` lifted to possibly-undefined values (`undefined === undefined`
is `true`). -/
def jsStrictEqOpt : Option Json → Option Json → Bool
  | none, none => true
  | some a, some b => jsStrictEq a b
  | _, _ => false

/-- JS `Array.prototype.includes` on an array of JSON values (uses `===`). -/
def jsIncludes (l : List Json) (x : Json) : Bool := l.any (fun y => jsStrictEq y x)

/-- Decimal rendering of a natural number (JS number-to-string on the
integers this system handles). -/
def natToStr (n : Nat) : Str := Nat.toDigits 10 n

/-- Decimal rendering of an integer. -/
def intToStr (n : Int) : Str :=
  if n < 0 then '-' :: natToStr n.natAbs else natToStr n.toNat

/-- JS `String(x)` coercion, with `fuel` bounding recursion into nested
arrays (called with `fuel` at least the nesting depth, it is exact).
Arrays render as their elements joined by commas with `null` rendered
empty; objects render as `[object Object]`. -/
def jsToStringF : Option Json → Nat → Str
  | none, _ => "undefined".data
  | some .null, _ => "null".data
  | some (.bool true), _ => "true".data
  | some (.bool false), _ => "false".data
  | some (.num n), _ => intToStr n
  | some (.str s), _ => s
  | some (.obj _), _ => "[object Object]".data
  | some (.arr _), 0 => []
  | some (.arr xs), fuel + 1 =>
    joinCommas (xs.map (fun x =>
      match x with
      | .null => []
      | y => jsToStringF (some y) fuel))
where
  joinCommas : List Str → Str
    | [] => []
    | [s] => s
    | s :: rest => s ++ ',' :: joinCommas rest

mutual

/-- Array-nesting depth of a JSON value, used as fuel for `jsToStringF`. -/
def jsonDepth : Json → Nat
  | .arr xs => 1 + jsonDepthList xs
  | _ => 1

/-- Maximum `jsonDepth` over a list of JSON values. -/
def jsonDepthList : List Json → Nat
  | [] => 0
  | x :: xs => max (jsonDepth x) (jsonDepthList xs)

end

/-- JS `String(x)`.  `jsonDepth x` bounds the array-nesting depth, so the
fuelled renderer is exact here. -/
def jsToString (j : Option Json) : Str :=
  match j with
  | none => "undefined".data
  | some x => jsToStringF (some x) (jsonDepth x)

/-- Property lookup `obj[key]` (`none` models `undefined`).  Arrays and
primitives have no own string-named data properties relevant here. -/
def jsGet (j : Json) (k : Str) : Option Json :=
  match j with
  | .obj fields =>
    match fields.find? (fun f => f.1 == k) with
    | some f => some f.2
    | none => none
  | _ => none

/-- JS `Object.keys`: own enumerable keys — field names of an object,
index strings of an array or a string, `[]` for other primitives
(`Object.keys(null)` throws and is handled at its call site). -/
def jsKeys : Json → List Str
  | .obj fields => fields.map Prod.fst
  | .arr xs => (List.range xs.length).map natToStr
  | .str s => (List.range s.length).map natToStr
  | _ => []

/-- JS `key in obj` for objects and arrays (the only receivers the
validator applies it to; on primitives `in` throws). -/
def jsHasKey (j : Json) (k : Str) : Bool :=
  match j with
  | .obj fields => fields.any (fun f => f.1 == k)
  | .arr xs => ((List.range xs.length).map natToStr).any (fun i => i == k) || k == "length".data
  | _ => false

/-- JS truthiness of a possibly-undefined value. -/
def jsTruthy : Option Json → Bool
  | none => false
  | some .null => false
  | some (.bool b) => b
  | some (.num n) => n != 0
  | some (.str s) => !s.isEmpty
  | some (.arr _) => true
  | some (.obj _) => true

/-- `typeof x === "object" && x !== null` (arrays included). -/
def isObjLike : Json → Bool
  | .obj _ => true
  | .arr _ => true
  | _ => false

/-- `typeof x === "boolean"` on a possibly-undefined value. -/
def isBoolVal : Option Json → Bool
  | some (.bool _) => true
  | _ => false

/-- `Array.isArray`. -/
def isJsonArr : Json → Bool
  | .arr _ => true
  | _ => false

/-! ## Validator (embedding of `src/unnamed/part_000`) -/

/-- The eleven allowed DNS record types (`ALLOWED_TYPES`). -/
def ALLOWED_TYPES : List Str :=
  ["A".data, "AAAA".data, "CNAME".data, "TXT".data, "URL".data, "MX".data,
   "SRV".data, "CAA".data, "NS".data, "DS".data, "TLSA".data]

/-- `REQUIRED_TOP_KEYS`. -/
def REQUIRED_TOP_KEYS : List Str := ["user".data, "subdomain".data, "records".data]

/-- `ALLOWED_TOP_KEYS`. -/
def ALLOWED_TOP_KEYS : List Str :=
  ["user".data, "description".data, "subdomain".data, "records".data]

/-- `REQUIRED_USER_KEYS`. -/
def REQUIRED_USER_KEYS : List Str := ["username".data]

/-- `ALLOWED_RECORD_KEYS`. -/
def ALLOWED_RECORD_KEYS : List Str :=
  ["type".data, "name".data, "value".data, "proxied".data,
   "priority".data, "target".data,
   "weight".data, "port".data,
   "flags".data, "tag".data,
   "key_tag".data, "algorithm".data, "digest_type".data, "digest".data,
   "usage".data, "selector".data, "matching_type".data, "certificate".data]

/-- A character of the subdomain alphabet `[a-z0-9-]`. -/
def isSubChar (c : Char) : Bool := c.isLower || c.isDigit || c == '-'

/-- The subdomain format regex `/^[a-z0-9-]+$/`. -/
def matchesSubdomainRe (s : Str) : Bool := !s.isEmpty && s.all isSubChar

/-- One dotted-quad octet of `IPV4_REGEX`:
`25[0-5] | 2[0-4]\d | 1?\d?\d` (full-segment match). -/
def ipv4Octet : Str → Bool
  | [a] => a.isDigit
  | [a, b] => a.isDigit && b.isDigit
  | [a, b, c] =>
    (a == '1' && b.isDigit && c.isDigit) ||
    (a == '2' && (decide ('0' ≤ b) && decide (b ≤ '4')) && c.isDigit) ||
    (a == '2' && b == '5' && (decide ('0' ≤ c) && decide (c ≤ '5')))
  | _ => false

/-- `IPV4_REGEX.test`: four dot-separated octets. -/
def ipv4Match (s : Str) : Bool :=
  let segs := splitOnChar '.' s
  segs.length == 4 && segs.all ipv4Octet

/-- A hexadecimal digit `[0-9a-fA-F]`. -/
def isHexChar (c : Char) : Bool :=
  c.isDigit || (decide ('a' ≤ c) && decide (c ≤ 'f')) || (decide ('A' ≤ c) && decide (c ≤ 'F'))

/-- One `[0-9a-fA-F]{1,4}` group of `IPV6_REGEX`. -/
def hexGroup (s : Str) : Bool := !s.isEmpty && s.length ≤ 4 && s.all isHexChar

/-- `IPV6_REGEX.test`: the language of the source's IPv6 alternation
(full 8-group form, `::`, `(h:){1,7}:`, `:(h:){1,7}`, `(h:){1,6}:h`),
expressed over the colon-separated fields of the input. -/
def ipv6Match (s : Str) : Bool :=
  let segs := splitOnChar ':' s
  (segs.length == 8 && segs.all hexGroup)
  || (s == "::".data)
  || (match segs.reverse with
      | [] :: [] :: rest => !rest.isEmpty && rest.length ≤ 7 && rest.all hexGroup
      | _ => false)
  || (match segs with
      | [] :: rest =>
        (match rest.reverse with
         | [] :: groups => !groups.isEmpty && groups.length ≤ 7 && groups.all hexGroup
         | _ => false)
      | _ => false)
  || (match segs.reverse with
      | last :: [] :: rest =>
        hexGroup last && !rest.isEmpty && rest.length ≤ 6 && rest.all hexGroup
      | _ => false)

/-- `.filter(Array.isArray).flat()`: keep the array-valued entries and
concatenate their elements. -/
def flattenArrays : List Json → List Json
  | [] => []
  | Json.arr xs :: rest => xs ++ flattenArrays rest
  | _ :: rest => flattenArrays rest

/-- `Object.values`; `none` models the `TypeError` thrown on `null`.
On strings it returns the one-character strings, on other primitives `[]`. -/
def jsObjectValues : Json → Option (List Json)
  | .null => none
  | .obj fields => some (fields.map Prod.snd)
  | .arr xs => some xs
  | .str s => some (s.map (fun c => Json.str [c]))
  | .num _ => some []
  | .bool _ => some []

/-- The reserved-subdomain loader: `RESERVED_SUBDOMAINS` plus whether the
warning was printed.  `none` models a missing or unparsable
`reserved-subdomains.json` (the `try` block threw before assignment), so the
list stays `[]` and the warning is emitted; a parsed value only reaches the
`catch` when `Object.values` itself throws (top-level `null`). -/
def loadReserved : Option Json → List Json × Bool
  | none => ([], true)
  | some j =>
    match jsObjectValues j with
    | none => ([], true)
    | some vs => (flattenArrays vs, false)

/-- The distinct `fail(...)` outcomes of the validator, in source order.
`jsTypeError` models an uncaught JavaScript `TypeError` (e.g.
`data.subdomain.toLowerCase()` on a non-string), which also aborts the run. -/
inductive VFail where
  | invalidJson
  | extraTopKey (k : Str)
  | missingTopKey (k : Str)
  | userNotObject
  | userKeyRequired (k : Str)
  | invalidSubdomainFormat
  | reservedSubdomain
  | filenameMismatch
  | recordsNotArray
  | recordsEmpty
  | recordNotObject
  | proxiedNotBoolean
  | proxiedWrongType
  | nsdsNotExact (t : Str)
  | invalidRecordKey (k : Str)
  | unsupportedType (raw : Str)
  | nameNotString
  | wildcardName
  | outsideSubdomain
  | aBadValue
  | invalidIpv4
  | aaaaBadValue
  | invalidIpv6
  | cnameBadValue
  | txtBadValue
  | urlBadValue
  | mxBadTarget
  | mxBadPriority
  | srvBadPriority
  | srvBadWeight
  | srvBadPort
  | srvBadTarget
  | caaBadFlags
  | caaBadTag
  | caaBadValue
  | nsBadValue
  | dsBadKeyTag
  | dsBadAlgorithm
  | dsBadDigestType
  | dsBadDigest
  | tlsaBadUsage
  | tlsaBadSelector
  | tlsaBadMatchingType
  | tlsaBadCertificate
  | unreachableType (t : Str)
  | dsWithoutNS
  | jsTypeError
  deriving DecidableEq

/-- `String(r.type).toUpperCase()`. -/
def recType (r : Json) : Str := strToUpper (jsToString (jsGet r "type".data))

/-- `typeof r !== "object" || r === null`. -/
def recordShapeCheck (r : Json) : Option VFail :=
  if isObjLike r then none else some .recordNotObject

/-- The record types on which `proxied` is legal. -/
def proxiedAllowed : List Str := ["A".data, "AAAA".data, "CNAME".data]

/-- The `proxied` checks (boolean, then type restriction), run before the
record-key and type checks. -/
def proxiedCheck (r : Json) : Option VFail :=
  if jsHasKey r "proxied".data then
    if isBoolVal (jsGet r "proxied".data) then
      if strListContains proxiedAllowed (recType r) then none
      else some .proxiedWrongType
    else some .proxiedNotBoolean
  else none

/-- NS/DS records must sit exactly on the subdomain (`r.name !== data.subdomain`). -/
def nsdsNameCheck (sub : Option Json) (r : Json) : Option VFail :=
  if recType r == "NS".data || recType r == "DS".data then
    if jsStrictEqOpt (jsGet r "name".data) sub then none
    else some (.nsdsNotExact (recType r))
  else none

/-- Record keys must all belong to `ALLOWED_RECORD_KEYS`; the first
offending key (in enumeration order) fails. -/
def recordKeysCheck (r : Json) : Option VFail :=
  match (jsKeys r).find? (fun k => !(strListContains ALLOWED_RECORD_KEYS k)) with
  | some k => some (.invalidRecordKey k)
  | none => none

/-- Record type membership in `ALLOWED_TYPES` (the failure message carries
the raw, un-normalized `r.type`). -/
def typeMembershipCheck (r : Json) : Option VFail :=
  if strListContains ALLOWED_TYPES (recType r) then none
  else some (.unsupportedType (jsToString (jsGet r "type".data)))

/-- Record name checks: string, no wildcard, inside the assigned subdomain. -/
def recordNameCheck (sub : Option Json) (r : Json) : Option VFail :=
  match jsGet r "name".data with
  | some (.str s) =>
    if strIncludes s "*".data then some .wildcardName
    else if !(jsStrictEqOpt (some (.str s)) sub)
            && !(List.isSuffixOf ('.' :: jsToString sub) s) then some .outsideSubdomain
    else none
  | _ => some .nameNotString

/-- `typeof x === "string"` on a possibly-undefined value. -/
def isStrVal : Option Json → Bool
  | some (.str _) => true
  | _ => false

/-- Numeric extraction (`typeof x === "number"` plus the value). -/
def numVal : Option Json → Option Int
  | some (.num n) => some n
  | _ => none

/-- The A-record branch: string `value` matching the IPv4 pattern. -/
def checkA (r : Json) : Option VFail :=
  match jsGet r "value".data with
  | some (.str v) => if ipv4Match v then none else some .invalidIpv4
  | _ => some .aBadValue

/-- The AAAA-record branch: string `value` matching the IPv6 pattern. -/
def checkAAAA (r : Json) : Option VFail :=
  match jsGet r "value".data with
  | some (.str v) => if ipv6Match v then none else some .invalidIpv6
  | _ => some .aaaaBadValue

/-- The CNAME-record branch: string `value`. -/
def checkCNAME (r : Json) : Option VFail :=
  if isStrVal (jsGet r "value".data) then none else some .cnameBadValue

/-- The TXT-record branch: string `value`. -/
def checkTXT (r : Json) : Option VFail :=
  if isStrVal (jsGet r "value".data) then none else some .txtBadValue

/-- The URL-record branch: string `value`. -/
def checkURL (r : Json) : Option VFail :=
  if isStrVal (jsGet r "value".data) then none else some .urlBadValue

/-- The MX-record branch: string `target`, non-negative numeric `priority`. -/
def checkMX (r : Json) : Option VFail :=
  if !(isStrVal (jsGet r "target".data)) then some .mxBadTarget
  else
    match numVal (jsGet r "priority".data) with
    | some p => if p < 0 then some .mxBadPriority else none
    | none => some .mxBadPriority

/-- The SRV-record branch: non-negative `priority`/`weight`, positive
`port`, string `target`. -/
def checkSRV (r : Json) : Option VFail :=
  match numVal (jsGet r "priority".data) with
  | none => some .srvBadPriority
  | some p =>
    if p < 0 then some .srvBadPriority
    else
      match numVal (jsGet r "weight".data) with
      | none => some .srvBadWeight
      | some w =>
        if w < 0 then some .srvBadWeight
        else
          match numVal (jsGet r "port".data) with
          | none => some .srvBadPort
          | some pt =>
            if pt ≤ 0 then some .srvBadPort
            else if isStrVal (jsGet r "target".data) then none
            else some .srvBadTarget

/-- The CAA-record branch: numeric `flags`, string `tag` and `value`. -/
def checkCAA (r : Json) : Option VFail :=
  if (numVal (jsGet r "flags".data)).isNone then some .caaBadFlags
  else if !(isStrVal (jsGet r "tag".data)) then some .caaBadTag
  else if !(isStrVal (jsGet r "value".data)) then some .caaBadValue
  else none

/-- The NS-record branch: string `value`. -/
def checkNS (r : Json) : Option VFail :=
  if isStrVal (jsGet r "value".data) then none else some .nsBadValue

/-- The DS-record branch: numeric `key_tag`/`algorithm`/`digest_type`,
string `digest`. -/
def checkDS (r : Json) : Option VFail :=
  if (numVal (jsGet r "key_tag".data)).isNone then some .dsBadKeyTag
  else if (numVal (jsGet r "algorithm".data)).isNone then some .dsBadAlgorithm
  else if (numVal (jsGet r "digest_type".data)).isNone then some .dsBadDigestType
  else if !(isStrVal (jsGet r "digest".data)) then some .dsBadDigest
  else none

/-- The TLSA-record branch: numeric `usage`/`selector`/`matching_type`,
string `certificate`. -/
def checkTLSA (r : Json) : Option VFail :=
  if (numVal (jsGet r "usage".data)).isNone then some .tlsaBadUsage
  else if (numVal (jsGet r "selector".data)).isNone then some .tlsaBadSelector
  else if (numVal (jsGet r "matching_type".data)).isNone then some .tlsaBadMatchingType
  else if !(isStrVal (jsGet r "certificate".data)) then some .tlsaBadCertificate
  else none

/-- The per-type field contracts: the `if/else if` dispatch of the source
(each branch factored into the named check above), ending in the defensive
`unreachable record type` fallback. -/
def checkTypeFields (r : Json) : Option VFail :=
  if recType r == "A".data then checkA r
  else if recType r == "AAAA".data then checkAAAA r
  else if recType r == "CNAME".data then checkCNAME r
  else if recType r == "TXT".data then checkTXT r
  else if recType r == "URL".data then checkURL r
  else if recType r == "MX".data then checkMX r
  else if recType r == "SRV".data then checkSRV r
  else if recType r == "CAA".data then checkCAA r
  else if recType r == "NS".data then checkNS r
  else if recType r == "DS".data then checkDS r
  else if recType r == "TLSA".data then checkTLSA r
  else some (.unreachableType (recType r))

/-- First failure of a fail-fast check sequence. -/
def firstFail : List (Option VFail) → Option VFail
  | [] => none
  | some f :: _ => some f
  | none :: rest => firstFail rest

/-- Validation of one record, in the exact source order: object shape,
`proxied` checks, NS/DS name restriction, record-key subset, type
membership, name checks, then per-type field contracts. -/
def validateRecord (sub : Option Json) (r : Json) : Option VFail :=
  firstFail
    [recordShapeCheck r,
     proxiedCheck r,
     nsdsNameCheck sub r,
     recordKeysCheck r,
     typeMembershipCheck r,
     recordNameCheck sub r,
     checkTypeFields r]

/-- The record loop with the `hasNS`/`hasDS` tracking and the final
DS-requires-NS check. -/
def checkRecords (sub : Option Json) : List Json → Bool → Bool → Option VFail
  | [], hasNS, hasDS => if hasDS && !hasNS then some .dsWithoutNS else none
  | r :: rest, hasNS, hasDS =>
    match validateRecord sub r with
    | some f => some f
    | none =>
      checkRecords sub rest (hasNS || recType r == "NS".data)
        (hasDS || recType r == "DS".data)

/-- Validation of one parsed definition object against its file path and
the reserved denylist.  `MAX_RECORDS` is `0` in the source, so the
max-count check is statically skipped (`MAX_RECORDS && ...` is falsy). -/
def validateData (file : Str) (fields : List (Str × Json)) (reserved : List Json) :
    Option VFail :=
  match (fields.map Prod.fst).find? (fun k => !(strListContains ALLOWED_TOP_KEYS k)) with
  | some k => some (.extraTopKey k)
  | none =>
  match REQUIRED_TOP_KEYS.find? (fun k => !(jsHasKey (.obj fields) k)) with
  | some k => some (.missingTopKey k)
  | none =>
  if !(match jsGet (.obj fields) "user".data with
       | some u => isObjLike u
       | none => false) then some .userNotObject
  else
  match REQUIRED_USER_KEYS.find?
      (fun k => !(jsTruthy (match jsGet (.obj fields) "user".data with
                            | some u => jsGet u k
                            | none => none))) with
  | some k => some (.userKeyRequired k)
  | none =>
  if !(matchesSubdomainRe (jsToString (jsGet (.obj fields) "subdomain".data))) then
    some .invalidSubdomainFormat
  else
  match jsGet (.obj fields) "subdomain".data with
  | some (.str s) =>
    if jsIncludes reserved (.str (strToLower s)) then some .reservedSubdomain
    else if !(file == "domains/".data
        ++ jsToString (jsGet (.obj fields) "subdomain".data) ++ ".json".data) then
      some .filenameMismatch
    else
      match jsGet (.obj fields) "records".data with
      | some (.arr recs) =>
        if recs.isEmpty then some .recordsEmpty
        else checkRecords (jsGet (.obj fields) "subdomain".data) recs false false
      | _ => some .recordsNotArray
  | _ => some .jsTypeError

/-- Validation of a parsed top-level JSON value.  Non-object values fall
out of the key loops exactly as the JavaScript does: arrays and strings
expose index keys (so a non-empty one trips the extra-top-key check and an
empty array fails the required-key check), while `in` on primitives and
`Object.keys(null)` throw. -/
def validateTop (file : Str) (data : Json) (reserved : List Json) : Option VFail :=
  match data with
  | .obj fields => validateData file fields reserved
  | .arr [] => some (.missingTopKey "user".data)
  | .arr (_ :: _) => some (.extraTopKey "0".data)
  | .str [] => some .jsTypeError
  | .str (_ :: _) => some (.extraTopKey "0".data)
  | _ => some .jsTypeError

/-- Validation of one changed file: a `JSON.parse` failure is the
fail-fast `invalid JSON` outcome, everything else proceeds to `validateTop`. -/
def validateFile (file : Str) (content : Option Json) (reserved : List Json) :
    Option VFail :=
  match content with
  | none => some .invalidJson
  | some data => validateTop file data reserved

/-- The validator's change-feed filter: it filters the raw lines of
`changes.txt` by `startsWith("domains/") && endsWith(".json")`. -/
def validatorFiles (lines : List Str) : List Str :=
  lines.filter (fun f => "domains/".data.isPrefixOf f && List.isSuffixOf ".json".data f)

/-! ## Reconciler (embedding of `src/scripts/sync-dns.js`)

Records of a definition file are modelled at the shapes the schema gives
them (strings, numbers and booleans in their schema positions, each
optional); this covers every validator-accepted record as well as the
case-variant `type` spellings the claims discuss.  Every remote API call
the script would issue is recorded in an explicit `Call` trace, in issue
order. -/

/-- One desired record as read from a definition file. -/
structure JsRecord where
  type : Str
  name : Str
  value : Option Str := none
  proxied : Option Bool := none
  priority : Option Int := none
  target : Option Str := none
  weight : Option Int := none
  port : Option Int := none
  flags : Option Int := none
  tag : Option Str := none
  key_tag : Option Int := none
  algorithm : Option Int := none
  digest_type : Option Int := none
  digest : Option Str := none
  usage : Option Int := none
  selector : Option Int := none
  matching_type : Option Int := none
  certificate : Option Str := none
  deriving DecidableEq

/-- The structured `data` block a payload may carry (SRV/CAA/DS/TLSA).
`none` in a field models a key assigned `undefined`, which
`JSON.stringify` drops, so structural equality here matches the
stringify-comparison of `sameRecord`. -/
inductive PayloadData where
  | srv (service : Str) (proto : Option Str) (nm : Str)
        (priority weight port : Option Int) (target : Option Str)
  | caa (flags : Option Int) (tag : Option Str) (value : Option Str)
  | ds (key_tag algorithm digest_type : Option Int) (digest : Option Str)
  | tlsa (usage selector matching_type : Option Int) (certificate : Option Str)
  deriving DecidableEq

/-- A provider API payload built by `buildPayload`.  An outer `none`
models an absent key; `content`/`priority` carry a further `Option` because
the source can assign them an undefined record field. -/
structure Payload where
  type : Str
  name : Str
  ttl : Nat
  proxied : Option Bool := none
  content : Option (Option Str) := none
  priority : Option (Option Int) := none
  data : Option PayloadData := none
  deriving DecidableEq

/-- A remote DNS record as listed from the provider (`id` is the
provider-assigned opaque identifier). -/
structure RemoteRecord where
  id : Nat
  type : Str
  name : Str
  content : Option Str := none
  proxied : Option Bool := none
  ttl : Option Nat := none
  priority : Option Int := none
  data : Option PayloadData := none
  deriving DecidableEq

/-- `buildPayload`: the URL-to-placeholder-AAAA intercept, then the
per-type payload assembly.  All `type` comparisons are `===` on the raw
`r.type`, exactly as in the source. -/
def buildPayload (r : JsRecord) : Payload :=
  if r.type == "URL".data then
    { type := "AAAA".data, name := r.name, content := some (some "100::".data),
      ttl := 1, proxied := some true }
  else
    let p : Payload := { type := r.type, name := r.name, ttl := 1 }
    let p := if strListContains ["A".data, "AAAA".data, "CNAME".data] r.type then
               { p with proxied := some (r.proxied.getD false) } else p
    let p := if strListContains
                  ["A".data, "AAAA".data, "CNAME".data, "TXT".data, "URL".data, "NS".data]
                  r.type then
               { p with content := some r.value } else p
    let p := if r.type == "MX".data then
               { p with content := some r.target, priority := some r.priority } else p
    let p := if r.type == "SRV".data then
               let segs := splitOnChar '.' r.name
               { p with data := some (.srv segs.headI (segs.get? 1)
                   (joinDots (segs.drop 2)) r.priority r.weight r.port r.target) }
             else p
    let p := if r.type == "CAA".data then
               { p with data := some (.caa r.flags r.tag r.value) } else p
    let p := if r.type == "DS".data then
               { p with data := some (.ds r.key_tag r.algorithm r.digest_type r.digest) }
             else p
    let p := if r.type == "TLSA".data then
               { p with data := some (.tlsa r.usage r.selector r.matching_type r.certificate) }
             else p
    p

/-- `sameRecord`: compare only the keys present in the generated payload
(`data` by stringify-equality, everything else by `===`). -/
def sameRecord (e : RemoteRecord) (p : Payload) : Bool :=
  (e.type == p.type) && (e.name == p.name) && (e.ttl == some p.ttl)
  && (match p.proxied with | none => true | some b => e.proxied == some b)
  && (match p.content with | none => true | some v => e.content == v)
  && (match p.priority with | none => true | some v => e.priority == v)
  && (match p.data with | none => true | some d => e.data == some d)

/-- `recordsForSubdomain`: hostname-scoped filtering of the zone listing. -/
def recordsForSubdomain (sub : Str) (all : List RemoteRecord) (domain : Str) :
    List RemoteRecord :=
  let suffix := sub ++ '.' :: domain
  all.filter (fun r => r.name == suffix || List.isSuffixOf ('.' :: suffix) r.name)

/-- A redirect rule.  Generated rules fill every field; rules listed from
the provider may carry anything in these positions. -/
structure Rule where
  description : Str
  expression : Str
  action : Str
  target_url : Option Str := none
  status_code : Option Nat := none
  preserve_query_string : Option Bool := none
  deriving DecidableEq

/-- The rule `syncRedirects` builds for one URL record of a hostname. -/
def newRule (hostname : Str) (r : JsRecord) : Rule :=
  { description := "Redirect: ".data ++ hostname
    expression := "(http.host eq \"".data ++ (hostname ++ "\")".data)
    action := "redirect".data
    target_url := r.value
    status_code := some 301
    preserve_query_string := some true }

/-- The ownership filter of `syncRedirects`:
`r.expression.includes('"' + hostname + '"')`. -/
def ruleOwned (hostname : Str) (r : Rule) : Bool :=
  strIncludes r.expression ('"' :: (hostname ++ ['"']))

/-- State of the shared redirect ruleset before a `syncRedirects`
invocation: whether a ruleset of the expected phase/kind exists, and its
current rule list (a just-created ruleset has `rules: []`). -/
structure RulesetState where
  present : Bool
  rules : List Rule
  deriving DecidableEq

/-- The rule list `syncRedirects` reads (`.rules || []` on a fresh
ruleset). -/
def currentRulesOf (rs : RulesetState) : List Rule :=
  if rs.present then rs.rules else []

/-- One remote API call, in the order the script issues them. -/
inductive Call where
  | dnsUpdate (id : Nat) (p : Payload)
  | dnsCreate (p : Payload)
  | dnsDelete (id : Nat)
  | rulesetList
  | rulesetCreate
  | rulesetGet
  | rulesetReplace (rules : List Rule)
  deriving DecidableEq

/-- A DNS-record update, create or delete call. -/
def Call.isDnsWrite : Call → Bool
  | .dnsUpdate _ _ => true
  | .dnsCreate _ => true
  | .dnsDelete _ => true
  | _ => false

/-- A DNS-record update or create call (the first loop of `applyFile`). -/
def Call.isUpdateOrCreate : Call → Bool
  | .dnsUpdate _ _ => true
  | .dnsCreate _ => true
  | _ => false

/-- A DNS-record delete call. -/
def Call.isDnsDelete : Call → Bool
  | .dnsDelete _ => true
  | _ => false

/-- Any call against the redirect ruleset (reads and writes alike). -/
def Call.isRulesetCall : Call → Bool
  | .rulesetList => true
  | .rulesetCreate => true
  | .rulesetGet => true
  | .rulesetReplace _ => true
  | _ => false

/-- The ruleset replace (PUT) write. -/
def Call.isRulesetReplace : Call → Bool
  | .rulesetReplace _ => true
  | _ => false

/-- Any update, create or delete remote call — DNS record calls and
ruleset writes alike; reads are excluded. -/
def Call.isWriteCall : Call → Bool
  | .dnsUpdate _ _ => true
  | .dnsCreate _ => true
  | .dnsDelete _ => true
  | .rulesetCreate => true
  | .rulesetReplace _ => true
  | _ => false

/-- The calls of one `syncRedirects` invocation: list the rulesets,
create one if absent, fetch the current rules, and replace the rule list
when the guard `otherRules.length + newRules.length !== currentRules.length
|| newRules.length > 0` fires. -/
def syncRedirectsCalls (sub : Str) (urlRecords : List JsRecord) (domain : Str)
    (rs : RulesetState) : List Call :=
  let hostname := sub ++ '.' :: domain
  let createCalls : List Call := if rs.present then [] else [Call.rulesetCreate]
  let currentRules := currentRulesOf rs
  let otherRules := currentRules.filter (fun r => !(ruleOwned hostname r))
  let newRules := urlRecords.map (newRule hostname)
  let writeCalls : List Call :=
    if (otherRules.length + newRules.length != currentRules.length)
        || decide (newRules.length > 0) then
      [Call.rulesetReplace (otherRules ++ newRules)]
    else []
  Call.rulesetList :: createCalls ++ Call.rulesetGet :: writeCalls

/-- Lookup of the first remote record with the payload's `(type, name)`. -/
def findMatch (existing : List RemoteRecord) (p : Payload) : Option RemoteRecord :=
  existing.find? (fun e => e.type == p.type && e.name == p.name)

/-- The desired-record loop of `applyFile`: returns the update/create
calls it issues and the final `keep` set of matched remote ids. -/
def dnsLoopCalls (existing : List RemoteRecord) :
    List JsRecord → List Nat → List Call × List Nat
  | [], keep => ([], keep)
  | r :: rest, keep =>
    let payload := buildPayload r
    match findMatch existing payload with
    | some m =>
      let keep2 := if keep.contains m.id then keep else m.id :: keep
      let here : List Call :=
        if sameRecord m payload then [] else [Call.dnsUpdate m.id payload]
      let step := dnsLoopCalls existing rest keep2
      (here ++ step.1, step.2)
    | none =>
      let step := dnsLoopCalls existing rest keep
      (Call.dnsCreate payload :: step.1, step.2)

/-- The full call trace of `applyFile` for one added/modified definition:
the update/create loop, then (when URL records exist) the redirect-rule
convergence, then the cleanup deletes of unkept scoped records. -/
def applyFileCalls (sub : Str) (records : List JsRecord) (all : List RemoteRecord)
    (domain : Str) (rs : RulesetState) : List Call :=
  let existing := recordsForSubdomain sub all domain
  let loop := dnsLoopCalls existing records []
  let urlRecords := records.filter (fun r => r.type == "URL".data)
  let redirectCalls :=
    if urlRecords.isEmpty then [] else syncRedirectsCalls sub urlRecords domain rs
  let deleteCalls :=
    (existing.filter (fun e => !(loop.2.contains e.id))).map (fun e => Call.dnsDelete e.id)
  loop.1 ++ redirectCalls ++ deleteCalls

/-- DNS-converged remote state: every desired record's `(type, name)`
lookup finds a remote record that `sameRecord` reports equal, and every
scoped remote record ends up in the `keep` set of the loop. -/
def converged (records : List JsRecord) (existing : List RemoteRecord) : Bool :=
  records.all (fun r =>
    match findMatch existing (buildPayload r) with
    | some m => sameRecord m (buildPayload r)
    | none => false)
  && existing.all (fun e => (dnsLoopCalls existing records []).2.contains e.id)

/-- One parsed change-feed entry of the reconciler. -/
structure Change where
  status : Str
  file : Str
  deriving DecidableEq

/-- `line.split(/\s+/)` destructured into `{status, file}`. -/
def parseChangeLine (l : Str) : Change :=
  let parts := wsSplit l
  { status := parts.headI, file := (parts.drop 1).headI }

/-- The reconciler's change-feed parse: drop empty lines, split each line
into `(status, file)`, keep entries whose *path* is under `domains/` with
the `.json` extension. -/
def syncChanges (lines : List Str) : List Change :=
  ((lines.filter (fun l => !l.isEmpty)).map parseChangeLine).filter
    (fun c => "domains/".data.isPrefixOf c.file && List.isSuffixOf ".json".data c.file)

/-- A change-feed line of the form `<status> <path>`. -/
def mkLine (e : Str × Str) : Str := e.1 ++ ' ' :: e.2

/-! ## Concrete scenarios used by counterexamples and witnesses -/

/-- A URL-type desired record for `go.example.com`. -/
def urlRecEx : JsRecord :=
  { type := "URL".data, name := "go.example.com".data,
    value := some "https://target.example".data }

/-- The placeholder AAAA remote record a previous run left for `urlRecEx`. -/
def aaaaRemoteEx : RemoteRecord :=
  { id := 1, type := "AAAA".data, name := "go.example.com".data,
    content := some "100::".data, proxied := some true, ttl := some 1 }

/-- The ruleset exactly as a previous converged run left it for `urlRecEx`. -/
def rulesetEx : RulesetState :=
  { present := true, rules := [newRule ("go".data ++ '.' :: "example.com".data) urlRecEx] }

/-- A stale scoped remote record no desired record matches. -/
def staleRemoteEx : RemoteRecord :=
  { id := 2, type := "TXT".data, name := "go.example.com".data,
    content := some "stale".data, ttl := some 1 }

/-- An A-type desired record for `blog.example.com`. -/
def aRecEx : JsRecord :=
  { type := "A".data, name := "blog.example.com".data, value := some "203.0.113.5".data }

/-- The converged remote record for `aRecEx`. -/
def aRemoteEx : RemoteRecord :=
  { id := 3, type := "A".data, name := "blog.example.com".data,
    content := some "203.0.113.5".data, proxied := some false, ttl := some 1 }

/-- An A record whose `type` is spelled in lower case — accepted by the
validator's case-insensitive discrimination. -/
def lowerARecEx : JsRecord :=
  { type := "a".data, name := "x".data, value := some "1.2.3.4".data }

/-- A change feed of `(status, path)` entries, one qualifying path. -/
def feedEntriesEx : List (Str × Str) :=
  [("A".data, "domains/blog.json".data), ("M".data, "readme.md".data)]

/-- A reserved-name source whose only entry is spelled upper-case. -/
def reservedSourceEx : Json :=
  Json.obj [("category".data, Json.arr [Json.str "WWW".data])]

/-- A reserved-name source that parses but maps its category to a
non-array value. -/
def reservedBadShapeEx : Json :=
  Json.obj [("category".data, Json.str "www".data)]

/-- A well-formed definition for subdomain `www`. -/
def wwwFieldsEx : List (Str × Json) :=
  [("user".data, Json.obj [("username".data, Json.str "me".data)]),
   ("subdomain".data, Json.str "www".data),
   ("records".data, Json.arr
     [Json.obj [("type".data, Json.str "TXT".data), ("name".data, Json.str "www".data),
                ("value".data, Json.str "x".data)]])]

/-- A record with an unknown key *and* a non-boolean `proxied`. -/
def badKeyRecEx : Json :=
  Json.obj [("type".data, Json.str "A".data), ("name".data, Json.str "blog".data),
            ("value".data, Json.str "1.2.3.4".data), ("proxied".data, Json.str "yes".data),
            ("bogus".data, Json.num 1)]

/-- A record whose only defect is the unknown key `bogus`. -/
def txtBadKeyRecEx : Json :=
  Json.obj [("type".data, Json.str "TXT".data), ("name".data, Json.str "blog".data),
            ("value".data, Json.str "x".data), ("bogus".data, Json.num 1)]

/-- A validator-side record (as parsed JSON) whose `type` is spelled in
lower case. -/
def lowerTypeRecJson : Json :=
  Json.obj [("type".data, Json.str "a".data), ("name".data, Json.str "blog".data),
            ("value".data, Json.str "1.2.3.4".data)]

/-- A redirect rule belonging to another hostname. -/
def foreignRuleEx : Rule :=
  { description := "Redirect: other.example.com".data,
    expression := "(http.host eq \"other.example.com\")".data,
    action := "redirect".data }

/-- A ruleset holding a foreign rule and a stale rule of this hostname. -/
def mixedRulesetEx : RulesetState :=
  { present := true,
    rules := [foreignRuleEx, newRule ("go".data ++ '.' :: "example.com".data) urlRecEx] }

/-! ## General lemmas about the string model -/

/-- `List.isPrefixOf` decides the "there is a tail" decomposition. -/
theorem prefixOf_eq_true_iff (nd : Str) : ∀ hs : Str,
    nd.isPrefixOf hs = true ↔ ∃ t, hs = nd ++ t := by
  induction nd with
  | nil =>
    intro hs
    simp [List.isPrefixOf]
  | cons c nd ih =>
    intro hs
    cases hs with
    | nil => simp [List.isPrefixOf]
    | cons d hs =>
      simp only [List.isPrefixOf, Bool.and_eq_true, beq_iff_eq, ih]
      constructor
      · rintro ⟨rfl, t, rfl⟩
        exact ⟨t, rfl⟩
      · rintro ⟨t, ht⟩
        cases ht
        exact ⟨rfl, t, rfl⟩

/-- `strIncludes` decides the substring decomposition property. -/
theorem strIncludes_iff (hs nd : Str) :
    strIncludes hs nd = true ↔ ∃ s t, hs = s ++ nd ++ t := by
  induction hs with
  | nil =>
    simp only [strIncludes, List.isEmpty_iff]
    constructor
    · rintro rfl
      exact ⟨[], [], rfl⟩
    · rintro ⟨s, t, h⟩
      rcases List.append_eq_nil.mp h.symm with ⟨h1, _⟩
      exact (List.append_eq_nil.mp h1).2
  | cons c t ih =>
    simp only [strIncludes, Bool.or_eq_true, prefixOf_eq_true_iff, ih]
    constructor
    · rintro (⟨u, hu⟩ | ⟨s, u, hu⟩)
      · exact ⟨[], u, by simpa using hu⟩
      · exact ⟨c :: s, u, by simp [hu]⟩
    · rintro ⟨s, u, hu⟩
      cases s with
      | nil => exact Or.inl ⟨u, by simpa using hu⟩
      | cons d s =>
        rcases List.cons_eq_cons.mp hu with ⟨rfl, hu⟩
        exact Or.inr ⟨s, u, by simpa using hu⟩

/-! ## Shape lemmas for the validator's per-record checks -/

/-- `recordShapeCheck` can only report `recordNotObject`. -/
theorem recordShapeCheck_shape (r : Json) :
    recordShapeCheck r = none ∨ recordShapeCheck r = some VFail.recordNotObject := by
  unfold recordShapeCheck
  split <;> simp

/-- `proxiedCheck` can only report the two `proxied` failures. -/
theorem proxiedCheck_shape (r : Json) :
    proxiedCheck r = none ∨ proxiedCheck r = some VFail.proxiedNotBoolean
      ∨ proxiedCheck r = some VFail.proxiedWrongType := by
  unfold proxiedCheck
  split <;> [skip; simp]
  split <;> [skip; simp]
  split <;> simp

/-- `nsdsNameCheck` can only report `nsdsNotExact`. -/
theorem nsdsNameCheck_shape (sub : Option Json) (r : Json) :
    nsdsNameCheck sub r = none
      ∨ ∃ t, nsdsNameCheck sub r = some (VFail.nsdsNotExact t) := by
  unfold nsdsNameCheck
  split
  · split <;> simp
  · simp

/-- `recordKeysCheck` can only report `invalidRecordKey`. -/
theorem recordKeysCheck_shape (r : Json) :
    recordKeysCheck r = none
      ∨ ∃ k, recordKeysCheck r = some (VFail.invalidRecordKey k) := by
  unfold recordKeysCheck
  split <;> simp

/-- `typeMembershipCheck` can only report `unsupportedType`. -/
theorem typeMembershipCheck_shape (r : Json) :
    typeMembershipCheck r = none
      ∨ ∃ w, typeMembershipCheck r = some (VFail.unsupportedType w) := by
  unfold typeMembershipCheck
  split <;> simp

/-- `recordNameCheck` can only report the three name failures. -/
theorem recordNameCheck_shape (sub : Option Json) (r : Json) :
    recordNameCheck sub r = none ∨ recordNameCheck sub r = some VFail.nameNotString
      ∨ recordNameCheck sub r = some VFail.wildcardName
      ∨ recordNameCheck sub r = some VFail.outsideSubdomain := by
  unfold recordNameCheck
  split
  · split
    · simp
    · split <;> simp
  · simp

/-- The possible outcomes of `checkA`. -/
theorem checkA_shape (r : Json) :
    checkA r = none
      ∨ checkA r = some VFail.invalidIpv4
      ∨ checkA r = some VFail.aBadValue := by
  unfold checkA
  repeat' split
  all_goals simp

/-- The possible outcomes of `checkAAAA`. -/
theorem checkAAAA_shape (r : Json) :
    checkAAAA r = none
      ∨ checkAAAA r = some VFail.invalidIpv6
      ∨ checkAAAA r = some VFail.aaaaBadValue := by
  unfold checkAAAA
  repeat' split
  all_goals simp

/-- The possible outcomes of `checkCNAME`. -/
theorem checkCNAME_shape (r : Json) :
    checkCNAME r = none
      ∨ checkCNAME r = some VFail.cnameBadValue := by
  unfold checkCNAME
  repeat' split
  all_goals simp

/-- The possible outcomes of `checkTXT`. -/
theorem checkTXT_shape (r : Json) :
    checkTXT r = none
      ∨ checkTXT r = some VFail.txtBadValue := by
  unfold checkTXT
  repeat' split
  all_goals simp

/-- The possible outcomes of `checkURL`. -/
theorem checkURL_shape (r : Json) :
    checkURL r = none
      ∨ checkURL r = some VFail.urlBadValue := by
  unfold checkURL
  repeat' split
  all_goals simp

/-- The possible outcomes of `checkMX`. -/
theorem checkMX_shape (r : Json) :
    checkMX r = none
      ∨ checkMX r = some VFail.mxBadTarget
      ∨ checkMX r = some VFail.mxBadPriority := by
  unfold checkMX
  repeat' split
  all_goals simp

/-- The possible outcomes of `checkSRV`. -/
theorem checkSRV_shape (r : Json) :
    checkSRV r = none
      ∨ checkSRV r = some VFail.srvBadPriority
      ∨ checkSRV r = some VFail.srvBadWeight
      ∨ checkSRV r = some VFail.srvBadPort
      ∨ checkSRV r = some VFail.srvBadTarget := by
  unfold checkSRV
  repeat' split
  all_goals simp

/-- The possible outcomes of `checkCAA`. -/
theorem checkCAA_shape (r : Json) :
    checkCAA r = none
      ∨ checkCAA r = some VFail.caaBadFlags
      ∨ checkCAA r = some VFail.caaBadTag
      ∨ checkCAA r = some VFail.caaBadValue := by
  unfold checkCAA
  repeat' split
  all_goals simp

/-- The possible outcomes of `checkNS`. -/
theorem checkNS_shape (r : Json) :
    checkNS r = none
      ∨ checkNS r = some VFail.nsBadValue := by
  unfold checkNS
  repeat' split
  all_goals simp

/-- The possible outcomes of `checkDS`. -/
theorem checkDS_shape (r : Json) :
    checkDS r = none
      ∨ checkDS r = some VFail.dsBadKeyTag
      ∨ checkDS r = some VFail.dsBadAlgorithm
      ∨ checkDS r = some VFail.dsBadDigestType
      ∨ checkDS r = some VFail.dsBadDigest := by
  unfold checkDS
  repeat' split
  all_goals simp

/-- The possible outcomes of `checkTLSA`. -/
theorem checkTLSA_shape (r : Json) :
    checkTLSA r = none
      ∨ checkTLSA r = some VFail.tlsaBadUsage
      ∨ checkTLSA r = some VFail.tlsaBadSelector
      ∨ checkTLSA r = some VFail.tlsaBadMatchingType
      ∨ checkTLSA r = some VFail.tlsaBadCertificate := by
  unfold checkTLSA
  repeat' split
  all_goals simp

/-- An `if` of two options avoiding a given failure avoids it too; the
branch proofs may use the (un)satisfied condition. -/
theorem ite_ne_cond {c : Prop} [Decidable c] {a b : Option VFail} {f : VFail}
    (ha : c → a ≠ some f) (hb : ¬c → b ≠ some f) : (if c then a else b) ≠ some f := by
  split
  · exact ha (by assumption)
  · exact hb (by assumption)

/-- `checkTypeFields` never reports the reserved-subdomain failure (that
constructor belongs to the top-level pipeline). -/
theorem checkTypeFields_not_reserved (r : Json) :
    checkTypeFields r ≠ some VFail.reservedSubdomain := by
  unfold checkTypeFields
  refine ite_ne_cond (fun _ => ?_) (fun hn1 => ite_ne_cond (fun _ => ?_) (fun hn2 =>
    ite_ne_cond (fun _ => ?_) (fun hn3 => ite_ne_cond (fun _ => ?_) (fun hn4 =>
    ite_ne_cond (fun _ => ?_) (fun hn5 => ite_ne_cond (fun _ => ?_) (fun hn6 =>
    ite_ne_cond (fun _ => ?_) (fun hn7 => ite_ne_cond (fun _ => ?_) (fun hn8 =>
    ite_ne_cond (fun _ => ?_) (fun hn9 => ite_ne_cond (fun _ => ?_) (fun hn10 =>
    ite_ne_cond (fun _ => ?_) (fun hn11 => ?_)))))))))))
  · rcases checkA_shape r with h | h | h <;> simp [h]
  · rcases checkAAAA_shape r with h | h | h <;> simp [h]
  · rcases checkCNAME_shape r with h | h <;> simp [h]
  · rcases checkTXT_shape r with h | h <;> simp [h]
  · rcases checkURL_shape r with h | h <;> simp [h]
  · rcases checkMX_shape r with h | h | h <;> simp [h]
  · rcases checkSRV_shape r with h | h | h | h | h <;> simp [h]
  · rcases checkCAA_shape r with h | h | h | h <;> simp [h]
  · rcases checkNS_shape r with h | h <;> simp [h]
  · rcases checkDS_shape r with h | h | h | h | h <;> simp [h]
  · rcases checkTLSA_shape r with h | h | h | h | h <;> simp [h]
  · simp

/-- After a successful type-membership check, the defensive `unreachable
record type` fallback of `checkTypeFields` cannot fire: each of the eleven
allowed types is handled by an explicit branch. -/
theorem checkTypeFields_not_unreachable (r : Json)
    (hmem : strListContains ALLOWED_TYPES (recType r) = true) :
    ∀ s, checkTypeFields r ≠ some (VFail.unreachableType s) := by
  intro s
  unfold checkTypeFields
  refine ite_ne_cond (fun _ => ?_) (fun hn1 => ite_ne_cond (fun _ => ?_) (fun hn2 =>
    ite_ne_cond (fun _ => ?_) (fun hn3 => ite_ne_cond (fun _ => ?_) (fun hn4 =>
    ite_ne_cond (fun _ => ?_) (fun hn5 => ite_ne_cond (fun _ => ?_) (fun hn6 =>
    ite_ne_cond (fun _ => ?_) (fun hn7 => ite_ne_cond (fun _ => ?_) (fun hn8 =>
    ite_ne_cond (fun _ => ?_) (fun hn9 => ite_ne_cond (fun _ => ?_) (fun hn10 =>
    ite_ne_cond (fun _ => ?_) (fun hn11 => ?_)))))))))))
  · rcases checkA_shape r with h | h | h <;> simp [h]
  · rcases checkAAAA_shape r with h | h | h <;> simp [h]
  · rcases checkCNAME_shape r with h | h <;> simp [h]
  · rcases checkTXT_shape r with h | h <;> simp [h]
  · rcases checkURL_shape r with h | h <;> simp [h]
  · rcases checkMX_shape r with h | h | h <;> simp [h]
  · rcases checkSRV_shape r with h | h | h | h | h <;> simp [h]
  · rcases checkCAA_shape r with h | h | h | h <;> simp [h]
  · rcases checkNS_shape r with h | h <;> simp [h]
  · rcases checkDS_shape r with h | h | h | h | h <;> simp [h]
  · rcases checkTLSA_shape r with h | h | h | h | h <;> simp [h]
  · exfalso
    simp only [strListContains, ALLOWED_TYPES, List.any_cons, List.any_nil,
      Bool.or_eq_true, beq_iff_eq, Bool.false_eq_true, or_false] at hmem
    rcases hmem with h | h | h | h | h | h | h | h | h | h | h
    · exact hn1 (by rw [← h]; exact beq_self_eq_true _)
    · exact hn2 (by rw [← h]; exact beq_self_eq_true _)
    · exact hn3 (by rw [← h]; exact beq_self_eq_true _)
    · exact hn4 (by rw [← h]; exact beq_self_eq_true _)
    · exact hn5 (by rw [← h]; exact beq_self_eq_true _)
    · exact hn6 (by rw [← h]; exact beq_self_eq_true _)
    · exact hn7 (by rw [← h]; exact beq_self_eq_true _)
    · exact hn8 (by rw [← h]; exact beq_self_eq_true _)
    · exact hn9 (by rw [← h]; exact beq_self_eq_true _)
    · exact hn10 (by rw [← h]; exact beq_self_eq_true _)
    · exact hn11 (by rw [← h]; exact beq_self_eq_true _)

/-- `firstFail` on a one-element sequence returns that element. -/
theorem firstFail_singleton (x : Option VFail) : firstFail [x] = x := by
  cases x <;> rfl

/-! ## Claim C9 -/

/-- C9: for every record whose case-normalized type passes the global
type-membership check (it is one of the eleven allowed types), the
validator's defensive "unreachable record type" fallback is never reached —
every allowed type is handled by an explicit branch before the fallback. -/
theorem c9_no_unreachable_for_allowed_types (sub : Option Json) (r : Json)
    (hmem : strListContains ALLOWED_TYPES (recType r) = true) :
    ∀ s, validateRecord sub r ≠ some (VFail.unreachableType s) := by
  intro s hc
  unfold validateRecord at hc
  rcases recordShapeCheck_shape r with h1 | h1 <;> simp [h1, firstFail] at hc
  rcases proxiedCheck_shape r with h2 | h2 | h2 <;> simp [h2, firstFail] at hc
  rcases nsdsNameCheck_shape sub r with h3 | ⟨t, h3⟩ <;> simp [h3, firstFail] at hc
  rcases recordKeysCheck_shape r with h4 | ⟨k, h4⟩ <;> simp [h4, firstFail] at hc
  rcases typeMembershipCheck_shape r with h5 | ⟨w, h5⟩ <;> simp [h5, firstFail] at hc
  rcases recordNameCheck_shape sub r with h6 | h6 | h6 | h6 <;>
    simp [h6, firstFail, firstFail_singleton] at hc
  exact checkTypeFields_not_unreachable r hmem s hc

/-- C9 witness: the lower-case type `"a"` passes the membership check and
its validation never reaches the fallback. -/
theorem c9_witness :
    strListContains ALLOWED_TYPES (recType lowerTypeRecJson) = true
      ∧ ∀ s, validateRecord (some (Json.str "blog".data)) lowerTypeRecJson
          ≠ some (VFail.unreachableType s) :=
  ⟨by decide, c9_no_unreachable_for_allowed_types _ _ (by decide)⟩

/-! ## Claim C6 -/

/-- C6 (amended): a record with an unknown key fails with the
invalid-record-key reason regardless of its type — provided the earlier
`proxied` checks and the NS/DS exact-name check pass, since those three
checks run *before* the key-subset check in the source. -/
theorem c6_unknown_key_reason (sub : Option Json) (r : Json)
    (hshape : recordShapeCheck r = none)
    (hprox : proxiedCheck r = none)
    (hnsds : nsdsNameCheck sub r = none)
    (hkey : ∃ k, k ∈ jsKeys r ∧ strListContains ALLOWED_RECORD_KEYS k = false) :
    ∃ k, validateRecord sub r = some (VFail.invalidRecordKey k)
      ∧ strListContains ALLOWED_RECORD_KEYS k = false := by
  have hsome : ((jsKeys r).find? (fun k => !(strListContains ALLOWED_RECORD_KEYS k))).isSome := by
    rw [List.find?_isSome]
    obtain ⟨k, hk, hkf⟩ := hkey
    exact ⟨k, hk, by simp [hkf]⟩
  obtain ⟨k0, hk0⟩ := Option.isSome_iff_exists.mp hsome
  have hkc : recordKeysCheck r = some (VFail.invalidRecordKey k0) := by
    unfold recordKeysCheck
    rw [hk0]
  have hbad : strListContains ALLOWED_RECORD_KEYS k0 = false := by
    simpa using List.find?_some hk0
  refine ⟨k0, ?_, hbad⟩
  unfold validateRecord
  simp [hshape, hprox, hnsds, hkc, firstFail]

/-- C6 counterexample: a record carrying both an unknown key (`bogus`) and
a non-boolean `proxied` fails with the `proxied`-must-be-boolean reason,
not the invalid-record-key reason the claim promises for every record with
an unknown key. -/
theorem c6_counterexample :
    (∃ k, k ∈ jsKeys badKeyRecEx ∧ strListContains ALLOWED_RECORD_KEYS k = false)
      ∧ validateRecord (some (Json.str "blog".data)) badKeyRecEx
          = some VFail.proxiedNotBoolean :=
  ⟨⟨"bogus".data, by decide, by decide⟩, by decide⟩

/-- C6 witness: with the `proxied` and NS/DS checks satisfied, an unknown
key does fail with the invalid-record-key reason. -/
theorem c6_witness :
    ∃ k, validateRecord (some (Json.str "blog".data)) txtBadKeyRecEx
        = some (VFail.invalidRecordKey k)
      ∧ strListContains ALLOWED_RECORD_KEYS k = false :=
  c6_unknown_key_reason _ _ (by decide) (by decide) (by decide)
    ⟨"bogus".data, by decide, by decide⟩

/-! ## Claim C7 -/

/-- A single record's validation never reports the reserved-subdomain
failure — that failure belongs to the top-level pipeline. -/
theorem validateRecord_not_reserved (sub : Option Json) (r : Json) :
    validateRecord sub r ≠ some VFail.reservedSubdomain := by
  intro hc
  unfold validateRecord at hc
  rcases recordShapeCheck_shape r with h1 | h1 <;> simp [h1, firstFail] at hc
  rcases proxiedCheck_shape r with h2 | h2 | h2 <;> simp [h2, firstFail] at hc
  rcases nsdsNameCheck_shape sub r with h3 | ⟨t, h3⟩ <;> simp [h3, firstFail] at hc
  rcases recordKeysCheck_shape r with h4 | ⟨k, h4⟩ <;> simp [h4, firstFail] at hc
  rcases typeMembershipCheck_shape r with h5 | ⟨w, h5⟩ <;> simp [h5, firstFail] at hc
  rcases recordNameCheck_shape sub r with h6 | h6 | h6 | h6 <;>
    simp [h6, firstFail, firstFail_singleton] at hc
  exact checkTypeFields_not_reserved r hc

/-- The record loop never reports the reserved-subdomain failure. -/
theorem checkRecords_not_reserved (sub : Option Json) :
    ∀ (recs : List Json) (hasNS hasDS : Bool),
      checkRecords sub recs hasNS hasDS ≠ some VFail.reservedSubdomain := by
  intro recs
  induction recs with
  | nil =>
    intro hasNS hasDS hc
    unfold checkRecords at hc
    split at hc <;> simp_all
  | cons r rest ih =>
    intro hasNS hasDS hc
    unfold checkRecords at hc
    cases hv : validateRecord sub r with
    | some f =>
      rw [hv] at hc
      simp only [] at hc
      injection hc with hf
      subst hf
      exact validateRecord_not_reserved sub r hv
    | none =>
      rw [hv] at hc
      exact ih _ _ hc

/-- With an empty denylist the whole per-definition validation can never
return the reserved-subdomain failure. -/
theorem validateData_not_reserved_empty (file : Str) (fields : List (Str × Json)) :
    validateData file fields [] ≠ some VFail.reservedSubdomain := by
  intro hc
  unfold validateData at hc
  repeat' split at hc
  all_goals first
    | exact checkRecords_not_reserved _ _ _ _ hc
    | (rename_i hres
       refine absurd hres ?_
       simp [jsIncludes]
       done)
    | simp at hc

/-- C7 (amended): the reserved-source load degrades rather than aborts —
a missing or unparsable source (and a top-level `null`, on which
`Object.values` throws) yields the empty denylist *with* the warning; any
other parsed value is processed without a warning (even when it is not a
category→array mapping); and with the resulting empty denylist every
definition still reaches its normal verdict, the reserved check passing
vacuously. -/
theorem c7_reserved_load_degrades :
    loadReserved none = ([], true)
    ∧ loadReserved (some Json.null) = ([], true)
    ∧ (∀ j, j ≠ Json.null → (loadReserved (some j)).2 = false)
    ∧ (∀ (file : Str) (content : Option Json),
        validateFile file content [] ≠ some VFail.reservedSubdomain) := by
  refine ⟨rfl, rfl, ?_, ?_⟩
  · intro j hj
    cases j <;> first | rfl | exact absurd rfl hj
  · intro file content hc
    cases content with
    | none => simp [validateFile] at hc
    | some data =>
      cases data with
      | obj fields =>
        exact validateData_not_reserved_empty file fields
          (by simpa [validateFile, validateTop] using hc)
      | arr xs => cases xs <;> simp [validateFile, validateTop] at hc
      | str s => cases s <;> simp [validateFile, validateTop] at hc
      | null => simp [validateFile, validateTop] at hc
      | bool b => simp [validateFile, validateTop] at hc
      | num n => simp [validateFile, validateTop] at hc

/-- C7 counterexample: a source that parses but maps its category to a
non-array value degrades *silently* — the denylist is empty yet no warning
is emitted, against the claim that every malformed source produces a
warning. -/
theorem c7_counterexample :
    loadReserved (some reservedBadShapeEx) = ([], false) := rfl

/-- C7 witness: a parsed object source carries no warning, and a concrete
definition validated under the empty denylist is never rejected as
reserved. -/
theorem c7_witness :
    (loadReserved (some reservedBadShapeEx)).2 = false
    ∧ validateFile "domains/www.json".data (some (Json.obj wwwFieldsEx)) []
        ≠ some VFail.reservedSubdomain :=
  ⟨c7_reserved_load_degrades.2.2.1 _ (fun h => Json.noConfusion h),
   c7_reserved_load_degrades.2.2.2 _ _⟩

/-! ## Claim C5 -/

/-- Elements of array-valued entries survive into `flattenArrays`. -/
theorem mem_flattenArrays {x : Json} :
    ∀ (vs : List Json) (xs : List Json),
      Json.arr xs ∈ vs → x ∈ xs → x ∈ flattenArrays vs := by
  intro vs
  induction vs with
  | nil => simp
  | cons v rest ih =>
    intro xs hv hx
    rcases List.mem_cons.mp hv with heq | hv2
    · rw [← heq]
      rw [show flattenArrays (Json.arr xs :: rest) = xs ++ flattenArrays rest from rfl]
      exact List.mem_append_left _ hx
    · have hrest := ih xs hv2 hx
      cases v <;> simp [flattenArrays, hrest]

/-- C5 (amended): the denylist holds the source strings verbatim — every
element of every array-valued category lands in it unchanged, with no case
normalization — and the reserved membership test is exact `===` equality:
`jsIncludes` succeeds on a string precisely when that very string is an
element, so a source entry differing in case from the (lowercased)
subdomain never rejects it. -/
theorem c5_verbatim_denylist :
    (∀ (fields : List (Str × Json)) (k : Str) (xs : List Json) (x : Json),
        (k, Json.arr xs) ∈ fields → x ∈ xs
          → x ∈ (loadReserved (some (Json.obj fields))).1)
    ∧ (∀ (l : List Json) (s : Str),
        jsIncludes l (Json.str s) = true ↔ Json.str s ∈ l) := by
  constructor
  · intro fields k xs x hf hx
    show x ∈ flattenArrays (fields.map Prod.snd)
    exact mem_flattenArrays _ xs (List.mem_map.mpr ⟨(k, Json.arr xs), hf, rfl⟩) hx
  · intro l s
    unfold jsIncludes
    rw [List.any_eq_true]
    constructor
    · rintro ⟨y, hy, heq⟩
      cases y <;> simp [jsStrictEq] at heq
      subst heq
      exact hy
    · intro hmem
      exact ⟨_, hmem, by simp [jsStrictEq]⟩

/-- C5 counterexample: with the single source entry `"WWW"`, the denylist
holds `"WWW"` verbatim, its lowercase form `"www"` is *not* a member, and
a definition for subdomain `www` passes validation — the claimed
case-insensitive rejection does not happen. -/
theorem c5_counterexample :
    (loadReserved (some reservedSourceEx)).1 = [Json.str "WWW".data]
    ∧ jsIncludes (loadReserved (some reservedSourceEx)).1
        (Json.str (strToLower "www".data)) = false
    ∧ validateData "domains/www.json".data wwwFieldsEx
        (loadReserved (some reservedSourceEx)).1 = none :=
  ⟨rfl, by decide, by decide⟩

/-- C5 witness: the upper-case source entry is in the denylist verbatim,
and membership testing is exact equality. -/
theorem c5_witness :
    Json.str "WWW".data ∈ (loadReserved (some reservedSourceEx)).1
    ∧ (jsIncludes [Json.str "WWW".data] (Json.str "www".data) = true
        ↔ Json.str "www".data ∈ [Json.str "WWW".data]) :=
  ⟨c5_verbatim_denylist.1 _ "category".data _ _ (List.mem_singleton.mpr rfl)
      (List.mem_singleton.mpr rfl),
   c5_verbatim_denylist.2 _ _⟩

/-! ## Claim C3 -/

/-- C3 (amended): `buildPayload` matches the record's raw `type` field
case-sensitively, so only for `type` spelled exactly `"A"`, `"AAAA"` or
`"CNAME"` does the payload carry `content = value` and
`proxied = proxied ?? false`; validator-accepted case variants such as
`"a"` fall through every branch (see the counterexample). -/
theorem c3_payload_exact_case (r : JsRecord)
    (h : r.type = "A".data ∨ r.type = "AAAA".data ∨ r.type = "CNAME".data) :
    (buildPayload r).content = some r.value
    ∧ (buildPayload r).proxied = some (r.proxied.getD false) := by
  rcases h with h | h | h <;>
    simp +decide [buildPayload, strListContains, h]

/-- C3 counterexample: the record type `"a"` is accepted by the
validator's case-insensitive discrimination (its upper-cased form is an
allowed type), yet `buildPayload` emits a payload with *no* `content` and
*no* `proxied` key for it — `content` does not equal the record's value. -/
theorem c3_counterexample :
    strListContains ALLOWED_TYPES (strToUpper lowerARecEx.type) = true
    ∧ lowerARecEx.value = some "1.2.3.4".data
    ∧ (buildPayload lowerARecEx).content = none
    ∧ (buildPayload lowerARecEx).proxied = none := by decide

/-- C3 witness: an exactly-spelled `"A"` record gets `content = value` and
the defaulted `proxied`. -/
theorem c3_witness :
    (buildPayload aRecEx).content = some aRecEx.value
    ∧ (buildPayload aRecEx).proxied = some (aRecEx.proxied.getD false) :=
  c3_payload_exact_case aRecEx (Or.inl rfl)

/-! ## Claim C4 -/

/-- One unfolding step of `wsSplit` at a non-whitespace head. -/
theorem wsSplit_cons_nonws (c : Char) (rest : Str) (hc : c.isWhitespace = false) :
    wsSplit (c :: rest) =
      match wsSplit rest with
      | s :: tl => (c :: s) :: tl
      | [] => [[c]] := by
  rw [wsSplit.eq_def]
  simp [hc]

/-- One unfolding step of `wsSplit` at a whitespace head followed by a
non-whitespace character. -/
theorem wsSplit_cons_ws (c c2 : Char) (rest : Str) (hc : c.isWhitespace = true)
    (hc2 : c2.isWhitespace = false) :
    wsSplit (c :: c2 :: rest) = [] :: wsSplit (c2 :: rest) := by
  rw [wsSplit.eq_def]
  simp [hc, hc2]

/-- A non-empty all-solid (whitespace-free) string splits into itself. -/
theorem wsSplit_all_solid : ∀ (l : Str), l ≠ [] →
    (∀ c ∈ l, c.isWhitespace = false) → wsSplit l = [l] := by
  intro l
  induction l with
  | nil => intro hne _; exact absurd rfl hne
  | cons c t ih =>
    intro _ h
    rw [wsSplit_cons_nonws c t (h c (List.mem_cons_self _ _))]
    cases t with
    | nil => rfl
    | cons d t2 =>
      rw [ih (by simp) (fun x hx => h x (List.mem_cons_of_mem _ hx))]

/-- `wsSplit` on `<status> <path>` with solid status and path gives
exactly the two fields. -/
theorem wsSplit_status_path : ∀ (s : Str), s ≠ [] →
    (∀ c ∈ s, c.isWhitespace = false) → ∀ (p : Str), p ≠ [] →
    (∀ c ∈ p, c.isWhitespace = false) →
    wsSplit (s ++ ' ' :: p) = [s, p] := by
  intro s
  induction s with
  | nil => intro hne _; exact absurd rfl hne
  | cons c t ih =>
    intro _ hsw p hp hpw
    have hc := hsw c (List.mem_cons_self _ _)
    cases t with
    | nil =>
      cases p with
      | nil => exact absurd rfl hp
      | cons q p2 =>
        have hq := hpw q (List.mem_cons_self _ _)
        rw [show (([c] : Str) ++ ' ' :: q :: p2) = c :: ' ' :: q :: p2 from rfl]
        rw [wsSplit_cons_nonws c _ hc]
        rw [wsSplit_cons_ws ' ' q p2 (by decide) hq]
        rw [wsSplit_all_solid (q :: p2) (by simp) hpw]
    | cons d t2 =>
      have hstep := ih (by simp) (fun x hx => hsw x (List.mem_cons_of_mem _ hx)) p hp hpw
      rw [show ((c :: d :: t2 : Str) ++ ' ' :: p) = c :: (d :: t2 ++ ' ' :: p) from rfl]
      rw [wsSplit_cons_nonws c _ hc, hstep]

/-- `parseChangeLine` undoes `mkLine` on solid status and path. -/
theorem parseChangeLine_mkLine (e : Str × Str) (h1 : e.1 ≠ [])
    (h1w : ∀ c ∈ e.1, c.isWhitespace = false) (h2 : e.2 ≠ [])
    (h2w : ∀ c ∈ e.2, c.isWhitespace = false) :
    parseChangeLine (mkLine e) = ⟨e.1, e.2⟩ := by
  unfold parseChangeLine mkLine
  rw [wsSplit_status_path e.1 h1 h1w e.2 h2 h2w]
  rfl

/-- `"domains/"` is never a prefix of a line opening with a letter other
than `'d'`. -/
theorem domains_dir_not_leading (c : Char) (rest : Str) (hc : c ≠ 'd') :
    "domains/".data.isPrefixOf (c :: rest) = false := by
  rw [Bool.eq_false_iff]
  intro h
  rw [prefixOf_eq_true_iff] at h
  obtain ⟨t, ht⟩ := h
  rw [show "domains/".data = 'd' :: "omains/".data from rfl] at ht
  rw [List.cons_append] at ht
  exact hc (List.cons_eq_cons.mp ht).1

/-- C4 (amended): the two consumers of the change feed filter differently.
On lines of the form `<status> <path>` with a git-letter status, the
validator — which filters the raw *lines* by `startsWith("domains/")` —
selects nothing, while the reconciler parses out the path and selects
exactly the entries whose path is under `domains/` with the `.json`
extension. -/
theorem c4_feed_filtering (entries : List (Str × Str))
    (hstat : ∀ e ∈ entries, e.1 = "A".data ∨ e.1 = "M".data ∨ e.1 = "D".data)
    (hpath : ∀ e ∈ entries, e.2 ≠ [] ∧ ∀ c ∈ e.2, c.isWhitespace = false) :
    validatorFiles (entries.map mkLine) = []
    ∧ syncChanges (entries.map mkLine)
        = (entries.filter (fun e => "domains/".data.isPrefixOf e.2
            && List.isSuffixOf ".json".data e.2)).map (fun e => ⟨e.1, e.2⟩) := by
  induction entries with
  | nil => exact ⟨rfl, rfl⟩
  | cons e es ih =>
    obtain ⟨ih1, ih2⟩ := ih (fun x hx => hstat x (List.mem_cons_of_mem _ hx))
      (fun x hx => hpath x (List.mem_cons_of_mem _ hx))
    have hst := hstat e (List.mem_cons_self _ _)
    obtain ⟨hpne, hpw⟩ := hpath e (List.mem_cons_self _ _)
    have hs1 : e.1 ≠ [] := by
      rcases hst with h | h | h <;> rw [h] <;> decide
    have hs1w : ∀ c ∈ e.1, c.isWhitespace = false := by
      rcases hst with h | h | h <;> rw [h] <;> decide
    have hpref : ("domains/".data.isPrefixOf (mkLine e)) = false := by
      rw [show mkLine e = e.1 ++ ' ' :: e.2 from rfl]
      rcases hst with h | h | h <;> rw [h] <;>
        exact domains_dir_not_leading _ _ (by decide)
    constructor
    · show validatorFiles (mkLine e :: es.map mkLine) = []
      unfold validatorFiles
      rw [List.filter_cons]
      simp only [hpref, Bool.false_and, if_false]
      exact ih1
    · show syncChanges (mkLine e :: es.map mkLine) = _
      unfold syncChanges
      have hlne : ((mkLine e).isEmpty = false) := by
        rw [show mkLine e = e.1 ++ ' ' :: e.2 from rfl]
        cases h1 : e.1 <;> simp [List.isEmpty]
      rw [List.filter_cons]
      simp only [hlne, Bool.not_false, if_true]
      rw [List.map_cons, List.filter_cons]
      rw [parseChangeLine_mkLine e hs1 hs1w hpne hpw]
      rw [List.filter_cons]
      unfold syncChanges at ih2
      by_cases hq : ("domains/".data.isPrefixOf e.2
          && List.isSuffixOf ".json".data e.2) = true
      · simp only [hq, eq_self_iff_true, if_true, List.map_cons]
        rw [ih2]
      · simp only [Bool.not_eq_true] at hq
        simp only [hq, Bool.false_eq_true, if_false]
        rw [ih2]

/-- C4 counterexample: on the feed line `A domains/blog.json` the path
qualifies, yet the validator's raw-line filter selects nothing (while the
reconciler selects the entry). -/
theorem c4_counterexample :
    validatorFiles ["A domains/blog.json".data] = []
    ∧ ("domains/".data.isPrefixOf "domains/blog.json".data
        && List.isSuffixOf ".json".data "domains/blog.json".data) = true
    ∧ syncChanges ["A domains/blog.json".data]
        = [{ status := "A".data, file := "domains/blog.json".data }] := by decide

/-- C4 witness: the amended claim at a concrete two-entry feed. -/
theorem c4_witness :
    validatorFiles (feedEntriesEx.map mkLine) = []
    ∧ syncChanges (feedEntriesEx.map mkLine)
        = [{ status := "A".data, file := "domains/blog.json".data }] := by
  have h := c4_feed_filtering feedEntriesEx (by decide) (by decide)
  exact ⟨h.1, h.2.trans (by decide)⟩

/-! ## Claim C8 -/

/-- C8: whenever a `syncRedirects` invocation issues its ruleset replace
write, the written rule list is exactly the current rules *not* owned by
this hostname — kept verbatim in their original relative order — followed
by the newly built rules; a current rule is dropped precisely when the
ownership test assigns it to this hostname. -/
theorem c8_frame_other_hostnames (sub : Str) (urlRecords : List JsRecord) (domain : Str)
    (rs : RulesetState) (w : List Rule)
    (hw : Call.rulesetReplace w ∈ syncRedirectsCalls sub urlRecords domain rs) :
    ∃ kept, w = kept ++ urlRecords.map (newRule (sub ++ '.' :: domain))
      ∧ List.Sublist kept (currentRulesOf rs)
      ∧ ∀ rule ∈ currentRulesOf rs,
          (ruleOwned (sub ++ '.' :: domain) rule = false ↔ rule ∈ kept) := by
  have hw2 : w = (currentRulesOf rs).filter
      (fun rule => !(ruleOwned (sub ++ '.' :: domain) rule))
      ++ urlRecords.map (newRule (sub ++ '.' :: domain)) := by
    simp only [syncRedirectsCalls] at hw
    split at hw <;> split at hw <;> simp at hw <;> exact hw
  refine ⟨(currentRulesOf rs).filter
      (fun rule => !(ruleOwned (sub ++ '.' :: domain) rule)),
    hw2, List.filter_sublist _, ?_⟩
  intro rule hr
  constructor
  · intro hof
    exact List.mem_filter.mpr ⟨hr, by simp [hof]⟩
  · intro hin
    simpa using (List.mem_filter.mp hin).2

/-- C8 witness: a mixed ruleset holding a foreign rule and a stale own
rule; the issued write keeps the foreign rule first and appends the fresh
rule. -/
theorem c8_witness :
    ∃ kept, [foreignRuleEx, newRule ("go".data ++ '.' :: "example.com".data) urlRecEx]
        = kept ++ [urlRecEx].map (newRule ("go".data ++ '.' :: "example.com".data))
      ∧ List.Sublist kept (currentRulesOf mixedRulesetEx)
      ∧ ∀ rule ∈ currentRulesOf mixedRulesetEx,
          (ruleOwned ("go".data ++ '.' :: "example.com".data) rule = false
            ↔ rule ∈ kept) :=
  c8_frame_other_hostnames "go".data [urlRecEx] "example.com".data mixedRulesetEx _
    (by decide)

/-! ## Claim C10 -/

/-- Subdomain-alphabet characters are never the double quote. -/
theorem subChar_ne_quote (c : Char) (h : isSubChar c = true) : c ≠ '"' := by
  intro heq
  subst heq
  exact absurd h (by decide)

/-- Splitting at the first quote: if two decompositions around a quote
agree and both left parts are quote-free, they coincide. -/
theorem firstQuote_split : ∀ (a : Str), (∀ c ∈ a, c ≠ '"') →
    ∀ (b : Str), (∀ c ∈ b, c ≠ '"') →
    ∀ (x y : Str), a ++ '"' :: x = b ++ '"' :: y → a = b ∧ x = y := by
  intro a
  induction a with
  | nil =>
    intro _ b hb x y h
    cases b with
    | nil => simpa using h
    | cons d b2 =>
      rw [List.nil_append, List.cons_append] at h
      obtain ⟨h1, _⟩ := List.cons_eq_cons.mp h
      exact absurd h1.symm (hb d (List.mem_cons_self _ _))
  | cons c a2 ih =>
    intro ha b hb x y h
    cases b with
    | nil =>
      rw [List.cons_append, List.nil_append] at h
      obtain ⟨h1, _⟩ := List.cons_eq_cons.mp h
      exact absurd h1 (ha c (List.mem_cons_self _ _))
    | cons d b2 =>
      rw [List.cons_append, List.cons_append] at h
      obtain ⟨h1, h2⟩ := List.cons_eq_cons.mp h
      obtain ⟨ha2, hx⟩ := ih (fun u hu => ha u (List.mem_cons_of_mem _ hu)) b2
        (fun u hu => hb u (List.mem_cons_of_mem _ hu)) x y h2
      exact ⟨by rw [h1, ha2], hx⟩

/-- C10: for hostnames built as `<sub>.<domain>` from quote-free
subdomains (the `^[a-z0-9-]+$` alphabet) over a quote-free domain, the
substring ownership test classifies a rule generated for `h1` as belonging
to `h2` exactly when `h1 = h2`; in particular proper prefixes or suffixes
never capture another hostname's generated rules. -/
theorem c10_ownership_exact (s1 s2 domain : Str) (r : JsRecord)
    (h1 : s1.all isSubChar = true) (h2 : s2.all isSubChar = true)
    (hd : domain.all (fun c => !(c == '"')) = true) :
    ruleOwned (s2 ++ '.' :: domain) (newRule (s1 ++ '.' :: domain) r) = true
      ↔ s1 ++ '.' :: domain = s2 ++ '.' :: domain := by
  have hdq : ∀ c ∈ domain, c ≠ '"' := by
    intro c hc heq
    have := List.all_eq_true.mp hd c hc
    rw [heq] at this
    exact absurd this (by decide)
  have hq1 : ∀ c ∈ s1 ++ '.' :: domain, c ≠ '"' := by
    intro c hc
    rcases List.mem_append.mp hc with h | h
    · exact subChar_ne_quote c (List.all_eq_true.mp h1 c h)
    · rcases List.mem_cons.mp h with rfl | h
      · decide
      · exact hdq c h
  have hq2 : ∀ c ∈ s2 ++ '.' :: domain, c ≠ '"' := by
    intro c hc
    rcases List.mem_append.mp hc with h | h
    · exact subChar_ne_quote c (List.all_eq_true.mp h2 c h)
    · rcases List.mem_cons.mp h with rfl | h
      · decide
      · exact hdq c h
  have hCq : ∀ c ∈ "(http.host eq ".data, c ≠ '"' := by decide
  have hexpr : (newRule (s1 ++ '.' :: domain) r).expression
      = "(http.host eq ".data ++ '"' :: ((s1 ++ '.' :: domain) ++ '"' :: [')']) := by
    show "(http.host eq \"".data ++ ((s1 ++ '.' :: domain) ++ "\")".data) = _
    rw [show "(http.host eq \"".data = "(http.host eq ".data ++ ['"'] from by decide,
      show "\")".data = '"' :: [')'] from by decide]
    simp [List.append_assoc]
  constructor
  · intro how
    rw [ruleOwned, hexpr, strIncludes_iff] at how
    obtain ⟨s, t, hst⟩ := how
    have hst2 : "(http.host eq ".data ++ '"' :: ((s1 ++ '.' :: domain) ++ '"' :: [')'])
        = s ++ '"' :: ((s2 ++ '.' :: domain) ++ '"' :: t) := by
      simpa [List.append_assoc] using hst
    have hsq : ∀ c ∈ s, c ≠ '"' := by
      have z1 : List.count '"' s1 = 0 := List.count_eq_zero.mpr
        (fun hm => subChar_ne_quote _ (List.all_eq_true.mp h1 _ hm) rfl)
      have z2 : List.count '"' s2 = 0 := List.count_eq_zero.mpr
        (fun hm => subChar_ne_quote _ (List.all_eq_true.mp h2 _ hm) rfl)
      have zd : List.count '"' domain = 0 := List.count_eq_zero.mpr
        (fun hm => hdq _ hm rfl)
      have zC : List.count '"' "(http.host eq ".data = 0 := by decide
      have hcnt := congrArg (List.count '"') hst2
      simp +decide [List.count_append, List.count_cons, z1, z2, zd, zC] at hcnt
      have hzero : List.count '"' s = 0 := by omega
      intro c hc heq
      subst heq
      exact absurd hc (List.count_eq_zero.mp hzero)
    obtain ⟨_, hmid⟩ := firstQuote_split "(http.host eq ".data hCq s hsq _ _ hst2
    obtain ⟨hhost, _⟩ := firstQuote_split (s1 ++ '.' :: domain) hq1
      (s2 ++ '.' :: domain) hq2 _ _ hmid
    exact hhost
  · intro heq
    rw [ruleOwned, hexpr, strIncludes_iff]
    refine ⟨"(http.host eq ".data, [')'], ?_⟩
    rw [← heq]
    simp

/-- C10 witness: `blog.example.com` versus `x-blog.example.com`, one a
proper suffix of the other; the generated rule is owned only under
equality. -/
theorem c10_witness :
    ruleOwned ("x-blog".data ++ '.' :: "example.com".data)
        (newRule ("blog".data ++ '.' :: "example.com".data) urlRecEx) = true
      ↔ "blog".data ++ '.' :: "example.com".data
          = "x-blog".data ++ '.' :: "example.com".data :=
  c10_ownership_exact "blog".data "x-blog".data "example.com".data urlRecEx
    (by decide) (by decide) (by decide)

/-! ## Claims C1 and C2 -/

/-- The desired-record loop issues only update and create calls. -/
theorem dnsLoopCalls_only_writes (existing : List RemoteRecord) :
    ∀ (records : List JsRecord) (keep : List Nat) (c : Call),
      c ∈ (dnsLoopCalls existing records keep).1 → c.isUpdateOrCreate = true := by
  intro records
  induction records with
  | nil => intro keep c hc; simp [dnsLoopCalls] at hc
  | cons r rest ih =>
    intro keep c hc
    simp only [dnsLoopCalls] at hc
    cases hm : findMatch existing (buildPayload r) with
    | some m =>
      rw [hm] at hc
      simp only [List.mem_append] at hc
      rcases hc with hc | hc
      · rcases hs : sameRecord m (buildPayload r) <;> rw [hs] at hc <;> simp at hc
        subst hc
        rfl
      · exact ih _ c hc
    | none =>
      rw [hm] at hc
      rcases List.mem_cons.mp hc with rfl | hc
      · rfl
      · exact ih _ c hc

/-- Under a DNS-converged scope the desired-record loop issues no calls. -/
theorem dnsLoopCalls_converged_nil (existing : List RemoteRecord) :
    ∀ (records : List JsRecord),
      records.all (fun r =>
        match findMatch existing (buildPayload r) with
        | some m => sameRecord m (buildPayload r)
        | none => false) = true →
      ∀ keep, (dnsLoopCalls existing records keep).1 = [] := by
  intro records
  induction records with
  | nil => intro _ keep; rfl
  | cons r rest ih =>
    intro hall keep
    rw [List.all_cons, Bool.and_eq_true] at hall
    obtain ⟨hr, hrest⟩ := hall
    simp only [dnsLoopCalls]
    cases hm : findMatch existing (buildPayload r) with
    | none => rw [hm] at hr; simp at hr
    | some m =>
      rw [hm] at hr
      simp at hr
      simp only [hm]
      simp [hr, ih hrest]

/-- Membership in an `if` between two lists implies membership in one of
them. -/
theorem mem_ite_or {α : Type} {c : α} {P : Prop} [Decidable P] {A B : List α}
    (h : c ∈ (if P then A else B)) : c ∈ A ∨ c ∈ B := by
  by_cases hP : P
  · rw [if_pos hP] at h; exact Or.inl h
  · rw [if_neg hP] at h; exact Or.inr h

/-- Every call of a `syncRedirects` invocation targets the ruleset. -/
theorem syncRedirectsCalls_only_ruleset (sub : Str) (urlRecords : List JsRecord)
    (domain : Str) (rs : RulesetState) :
    ∀ c ∈ syncRedirectsCalls sub urlRecords domain rs, c.isRulesetCall = true := by
  intro c hc
  simp only [syncRedirectsCalls, List.mem_cons, List.mem_append] at hc
  rcases hc with (h | h) | (h | h)
  · rw [h]; rfl
  · rcases mem_ite_or h with h | h
    · simp at h
    · simp at h; rw [h]; rfl
  · rw [h]; rfl
  · rcases mem_ite_or h with h | h
    · simp at h; rw [h]; rfl
    · simp at h

/-- A ruleset call is never a DNS-record write. -/
theorem rulesetCall_not_dnsWrite (c : Call) (h : c.isRulesetCall = true) :
    c.isDnsWrite = false := by
  cases c <;> simp_all [Call.isRulesetCall, Call.isDnsWrite]

/-- With at least one URL record the guard's new-rules disjunct forces the
replace write into the call list. -/
theorem syncRedirectsCalls_has_replace (sub : Str) (urlRecords : List JsRecord)
    (domain : Str) (rs : RulesetState) (hne : urlRecords ≠ []) :
    (syncRedirectsCalls sub urlRecords domain rs).any Call.isRulesetReplace = true := by
  have hguard : (((currentRulesOf rs).filter
        (fun rule => !(ruleOwned (sub ++ '.' :: domain) rule))).length
      + (urlRecords.map (newRule (sub ++ '.' :: domain))).length
      != (currentRulesOf rs).length
      || decide ((urlRecords.map (newRule (sub ++ '.' :: domain))).length > 0)) = true := by
    rw [Bool.or_eq_true]
    right
    simp [List.length_pos, hne]
  simp only [syncRedirectsCalls]
  rw [if_pos hguard]
  apply List.any_eq_true.mpr
  refine ⟨Call.rulesetReplace ((currentRulesOf rs).filter
      (fun rule => !(ruleOwned (sub ++ '.' :: domain) rule))
      ++ urlRecords.map (newRule (sub ++ '.' :: domain))), ?_, rfl⟩
  simp [List.mem_cons, List.mem_append]

/-- C1 (amended): under a converged remote state the second run issues no
DNS-record update, create or delete calls at all; when the desired state
has no URL records the trace is empty, but when URL records are present
the run still issues a redirect-ruleset replace write — the guard's
`newRules.length > 0` disjunct fires even though nothing changed. -/
theorem c1_second_run_calls (sub domain : Str) (records : List JsRecord)
    (all : List RemoteRecord) (rs : RulesetState)
    (h : converged records (recordsForSubdomain sub all domain) = true) :
    (applyFileCalls sub records all domain rs).filter Call.isDnsWrite = []
    ∧ (records.filter (fun r => r.type == "URL".data) = []
        → applyFileCalls sub records all domain rs = [])
    ∧ (records.filter (fun r => r.type == "URL".data) ≠ []
        → (applyFileCalls sub records all domain rs).any Call.isRulesetReplace = true) := by
  rw [converged, Bool.and_eq_true] at h
  obtain ⟨hall, hkeep⟩ := h
  have hloop : (dnsLoopCalls (recordsForSubdomain sub all domain) records []).1 = [] :=
    dnsLoopCalls_converged_nil _ records hall []
  have hdel : (recordsForSubdomain sub all domain).filter
      (fun e => !((dnsLoopCalls (recordsForSubdomain sub all domain) records []).2.contains
        e.id)) = [] := by
    rw [List.filter_eq_nil_iff]
    intro e he
    have hcont := List.all_eq_true.mp hkeep e he
    simp only [hcont]
    simp
  have htrace0 : applyFileCalls sub records all domain rs =
      (dnsLoopCalls (recordsForSubdomain sub all domain) records []).1
      ++ (if (records.filter (fun (r : JsRecord) => r.type == "URL".data)).isEmpty then []
          else syncRedirectsCalls sub
            (records.filter (fun (r : JsRecord) => r.type == "URL".data)) domain rs)
      ++ ((recordsForSubdomain sub all domain).filter
          (fun (e : RemoteRecord) =>
            !((dnsLoopCalls (recordsForSubdomain sub all domain) records []).2.contains
              e.id))).map (fun (e : RemoteRecord) => Call.dnsDelete e.id) := rfl
  have htrace : applyFileCalls sub records all domain rs =
      (if (records.filter (fun r => r.type == "URL".data)).isEmpty then []
       else syncRedirectsCalls sub (records.filter (fun r => r.type == "URL".data))
         domain rs) := by
    rw [htrace0, hloop, hdel]
    simp
  refine ⟨?_, ?_, ?_⟩
  · rw [htrace]
    split
    · rfl
    · rw [List.filter_eq_nil_iff]
      intro c hc
      have := syncRedirectsCalls_only_ruleset _ _ _ _ c hc
      simp [rulesetCall_not_dnsWrite c this]
  · intro hurl
    rw [htrace, if_pos]
    rw [hurl]
    rfl
  · intro hurl
    rw [htrace, if_neg]
    · exact syncRedirectsCalls_has_replace _ _ _ _ hurl
    · simpa [List.isEmpty_iff] using hurl

/-- C1 counterexample: a desired state with one URL record, a remote state
DNS-converged to it, and the ruleset exactly as the previous run wrote it —
the second run still issues a write call (the ruleset replace), refuting
"zero update/create/delete calls on the second run". -/
theorem c1_counterexample :
    converged [urlRecEx] (recordsForSubdomain "go".data [aaaaRemoteEx] "example.com".data)
        = true
    ∧ rulesetEx.present = true
    ∧ rulesetEx.rules = ([urlRecEx].filter (fun r => r.type == "URL".data)).map
        (newRule ("go".data ++ '.' :: "example.com".data))
    ∧ (applyFileCalls "go".data [urlRecEx] [aaaaRemoteEx] "example.com".data rulesetEx).any
        Call.isWriteCall = true :=
  ⟨by decide, rfl, by decide, by decide⟩

/-- C1 witness: a converged A-record-only state — the second run's trace is
completely empty. -/
theorem c1_witness :
    (applyFileCalls "blog".data [aRecEx] [aRemoteEx] "example.com".data rulesetEx).filter
        Call.isDnsWrite = []
    ∧ ([aRecEx].filter (fun r => r.type == "URL".data) = []
        → applyFileCalls "blog".data [aRecEx] [aRemoteEx] "example.com".data rulesetEx = [])
    ∧ ([aRecEx].filter (fun r => r.type == "URL".data) ≠ []
        → (applyFileCalls "blog".data [aRecEx] [aRemoteEx] "example.com".data
            rulesetEx).any Call.isRulesetReplace = true) :=
  c1_second_run_calls "blog".data "example.com".data [aRecEx] [aRemoteEx] rulesetEx
    (by decide)

/-- C2 (amended): the trace of one `applyFile` run decomposes into three
phases in order — DNS update/create calls, then the redirect-rule
convergence's ruleset calls, then the cleanup's DNS delete calls.  Deletes
come *after* redirect convergence, not before it. -/
theorem c2_phase_order (sub : Str) (records : List JsRecord) (all : List RemoteRecord)
    (domain : Str) (rs : RulesetState) :
    ∃ a b c, applyFileCalls sub records all domain rs = a ++ b ++ c
      ∧ (∀ x ∈ a, x.isUpdateOrCreate = true)
      ∧ (∀ x ∈ b, x.isRulesetCall = true)
      ∧ (∀ x ∈ c, x.isDnsDelete = true) := by
  refine ⟨(dnsLoopCalls (recordsForSubdomain sub all domain) records []).1,
    (if (records.filter (fun (r : JsRecord) => r.type == "URL".data)).isEmpty then []
     else syncRedirectsCalls sub
       (records.filter (fun (r : JsRecord) => r.type == "URL".data)) domain rs),
    ((recordsForSubdomain sub all domain).filter
      (fun (e : RemoteRecord) =>
        !((dnsLoopCalls (recordsForSubdomain sub all domain) records []).2.contains
          e.id))).map (fun (e : RemoteRecord) => Call.dnsDelete e.id),
    rfl, ?_, ?_, ?_⟩
  · exact fun x hx => dnsLoopCalls_only_writes _ records [] x hx
  · intro x hx
    split at hx
    · simp at hx
    · exact syncRedirectsCalls_only_ruleset _ _ _ _ x hx
  · intro x hx
    obtain ⟨e, _, rfl⟩ := List.mem_map.mp hx
    rfl

/-- C2 witness: the phase decomposition at a concrete run. -/
theorem c2_witness :
    ∃ a b c, applyFileCalls "go".data [urlRecEx] [aaaaRemoteEx, staleRemoteEx]
        "example.com".data rulesetEx = a ++ b ++ c
      ∧ (∀ x ∈ a, x.isUpdateOrCreate = true)
      ∧ (∀ x ∈ b, x.isRulesetCall = true)
      ∧ (∀ x ∈ c, x.isDnsDelete = true) :=
  c2_phase_order "go".data [urlRecEx] [aaaaRemoteEx, staleRemoteEx]
    "example.com".data rulesetEx

/-- C2 counterexample: with one URL record and one stale scoped record,
the delete of the stale record is issued *after* the ruleset calls have
begun — some DNS-record call (the delete) follows the start of
redirect-rule convergence, refuting the claimed ordering. -/
theorem c2_counterexample :
    ((applyFileCalls "go".data [urlRecEx] [aaaaRemoteEx, staleRemoteEx]
        "example.com".data rulesetEx).dropWhile
      (fun c => !c.isRulesetCall)).any Call.isDnsDelete = true := by decide

end IsAnAiDev
